import Mathlib

set_option maxRecDepth 8000

/-!
Shallow embedding of the `AudioEngine` class of `src/script.js` (WebKeyboard).

Times and gain levels are rationals.  The audio clock (`AudioContext.currentTime`)
is in seconds and the wall clock (used by `setTimeout`) is in milliseconds,
mirroring the units of the source; the `attack` and `release` settings are in
milliseconds.  Fallible operations return an extra `Bool` that is `true` iff the
call lets an uncaught exception escape.
-/

/-- Decimal digit list of a natural number, most significant first; models the
default decimal rendering a JS template literal applies to an integer. -/
def natDigits (n : Nat) : List Char :=
  if n < 10 then [Nat.digitChar n]
  else natDigits (n / 10) ++ [Nat.digitChar (n % 10)]
termination_by n
decreasing_by exact Nat.div_lt_self (by omega) (by omega)

/-- Decimal string of a natural number. -/
def natToString (n : Nat) : String :=
  ⟨natDigits n⟩

/-- JS `ToString` applied to an integer (as in the template literal
`` `${octave}` `` of `playNote`): decimal digits with a leading `-` sign when
negative. -/
def jsIntToString (i : Int) : String :=
  if i < 0 then "-" ++ natToString i.natAbs else natToString i.natAbs

/-- A JS number restricted to the values that reach the engine as an octave:
an integer or `NaN` (the result of `parseInt` on a non-numeric string). -/
inductive JsNum where
  | int (n : Int)
  | nan
deriving DecidableEq, Repr

/-- Rendering of a `JsNum` by a template literal (`${octave}`); `NaN` renders
as the string `"NaN"`. -/
def JsNum.render : JsNum → String
  | .int n => jsIntToString n
  | .nan => "NaN"

/-- `true` iff `c` is a decimal digit. -/
def isDigitChar (c : Char) : Bool :=
  '0' ≤ c && c ≤ '9'

/-- Parse the longest leading run of decimal digits; `none` when there is no
leading digit (JS `parseInt` then yields `NaN`). -/
def parseDigits (cs : List Char) : Option Nat :=
  let ds := cs.takeWhile isDigitChar
  if ds = [] then none
  else some (ds.foldl (fun a c => 10 * a + (c.toNat - 48)) 0)

/-- JS `parseInt(s)` (radix 10) on the strings this program feeds it: an
optional leading `-` sign followed by a digit run; anything else is `NaN`.
(The source never passes strings with leading whitespace or a `+` sign.) -/
def parseIntJS (s : String) : JsNum :=
  match s.toList with
  | [] => JsNum.nan
  | c :: cs =>
    if c = '-' then
      match parseDigits cs with
      | none => JsNum.nan
      | some n => JsNum.int (-(n : Int))
    else
      match parseDigits (c :: cs) with
      | none => JsNum.nan
      | some n => JsNum.int n

/-- Split a character list at every occurrence of `sep`, JS
`String.prototype.split` style (adjacent separators yield empty fields). -/
def splitChars (sep : Char) : List Char → List (List Char)
  | [] => [[]]
  | c :: cs =>
    if c = sep then [] :: splitChars sep cs
    else
      match splitChars sep cs with
      | [] => [[c]]
      | p :: ps => (c :: p) :: ps

/-- JS `s.split('-')` as used by `stopAllNotes` on registry keys. -/
def splitDash (s : String) : List String :=
  (splitChars '-' s.toList).map (fun l => ⟨l⟩)

/-- State of the Web Audio `AudioContext`. -/
inductive CtxState where
  | suspended
  | running
deriving DecidableEq, Repr

/-- The Web Audio `AudioContext`: an independently clocked audio timeline
(`currentTime`, in seconds) plus its running state. -/
structure AudioCtx where
  currentTime : ℚ
  state : CtxState
deriving DecidableEq, Repr

/-- `AudioContext.resume()`: marks the context running. -/
def resumeCtx (c : AudioCtx) : AudioCtx :=
  { c with state := CtxState.running }

/-- One scheduled automation event of an `AudioParam` timeline.  For
`linearRamp` the recorded time is the ramp's end time, as in Web Audio. -/
inductive AutomationEvent where
  | setValue (time : ℚ) (val : ℚ)
  | linearRamp (time : ℚ) (val : ℚ)
deriving DecidableEq, Repr

/-- The (end) time of an automation event. -/
def eventTime : AutomationEvent → ℚ
  | .setValue t _ => t
  | .linearRamp t _ => t

/-- The target value of an automation event. -/
def eventVal : AutomationEvent → ℚ
  | .setValue _ v => v
  | .linearRamp _ v => v

/-- Value of an automation timeline at time `t`, given the anchor `(pt, pv)`
(time and value of the most recent earlier event, or the param's default
before any event).  Events at or before `t` move the anchor; a pending
`linearRamp` interpolates linearly from the anchor toward its endpoint,
jumping when its duration is zero.  Mirrors Web Audio linear automation. -/
def valueFrom (t : ℚ) : ℚ → ℚ → List AutomationEvent → ℚ
  | _, pv, [] => pv
  | pt, pv, ev :: rest =>
    if eventTime ev ≤ t then valueFrom t (eventTime ev) (eventVal ev) rest
    else
      match ev with
      | .setValue _ _ => pv
      | .linearRamp te ve =>
        if te ≤ pt then ve
        else pv + (ve - pv) * (t - pt) / (te - pt)

/-- Value of a gain timeline at time `t`; the default value of a
`GainNode.gain` param is `1`, held before the first event. -/
def timelineValueAt (evs : List AutomationEvent) (t : ℚ) : ℚ :=
  valueFrom t 0 1 evs

/-- A `GainNode.gain` `AudioParam`.  `events` is the automation timeline;
`currentValue` models the spec's `[[current value]]` slot: the value most
recently computed by the rendering thread.  The `.value` getter reads this
slot, so a timeline mutation (cancel / set / ramp) does not synchronously
change what the getter returns — only rendering (`renderAt`) does. -/
structure GainParam where
  events : List AutomationEvent
  currentValue : ℚ
deriving DecidableEq, Repr

/-- `gain.setValueAtTime(v, t)`. -/
def GainParam.setValueAtTime (g : GainParam) (v t : ℚ) : GainParam :=
  { g with events := g.events ++ [AutomationEvent.setValue t v] }

/-- `gain.linearRampToValueAtTime(v, t)`. -/
def GainParam.linearRampToValueAtTime (g : GainParam) (v t : ℚ) : GainParam :=
  { g with events := g.events ++ [AutomationEvent.linearRamp t v] }

/-- `gain.cancelScheduledValues(t)`: drops every event scheduled at or after
`t`. -/
def GainParam.cancelScheduledValues (g : GainParam) (t : ℚ) : GainParam :=
  { g with events := g.events.filter (fun ev => eventTime ev < t) }

/-- The `gain.value` getter: returns the `[[current value]]` slot. -/
def GainParam.value (g : GainParam) : ℚ :=
  g.currentValue

/-- The rendering thread computing the param value at audio time `t` and
storing it in the `[[current value]]` slot. -/
def GainParam.renderAt (g : GainParam) (t : ℚ) : GainParam :=
  { g with currentValue := timelineValueAt g.events t }

/-- An `OscillatorNode`: waveform type (retyped in place by `setWaveform`),
fixed frequency, and scheduled start/stop times. -/
structure Oscillator where
  type : String
  frequency : ℚ
  startTime : Option ℚ
  stopTime : Option ℚ
deriving DecidableEq, Repr

/-- The value stored in `activeNotes` for one voice (`playNote` lines 84-88). -/
structure NoteData where
  oscillator : Oscillator
  gainNode : GainParam
  startTime : ℚ
deriving DecidableEq, Repr

/-- A pending `setTimeout` callback scheduled by `stopNote`: at wall-clock
time `fireAt` (milliseconds) it deletes `deleteKey` from `activeNotes`. -/
structure Timeout where
  fireAt : ℚ
  deleteKey : String
deriving DecidableEq, Repr

/-- The `AudioEngine` instance state (constructor, src/script.js lines 3-14),
plus the queue of pending `setTimeout` cleanup timers the instance has
outstanding. -/
structure AudioEngine where
  audioContext : Option AudioCtx
  masterGain : Option ℚ
  activeNotes : List (String × NoteData)
  waveform : String
  volume : ℚ
  octave : Int
  attack : ℚ
  release : ℚ
  pendingTimeouts : List Timeout
deriving DecidableEq, Repr

/-- `initAudioContext()` (lines 16-25): `backend` is the context the platform
provides (`none` when construction throws, in which case the `catch` leaves
the engine unchanged). -/
def initAudioContext (backend : Option AudioCtx) (e : AudioEngine) : AudioEngine :=
  match backend with
  | some ctx => { e with audioContext := some ctx, masterGain := some e.volume }
  | none => e

/-- The `AudioEngine` constructor (lines 3-14). -/
def mkAudioEngine (backend : Option AudioCtx) : AudioEngine :=
  initAudioContext backend
    { audioContext := none, masterGain := none, activeNotes := [], waveform := "sine",
      volume := 1/2, octave := 2, attack := 0, release := 200, pendingTimeouts := [] }

/-- `2 ^ n` on rationals by plain recursion (kept executable down to the
numerals). -/
def pow2Nat : Nat → ℚ
  | 0 => 1
  | n + 1 => 2 * pow2Nat n

/-- `Math.pow(2, octave)` for an integer `octave`: `2 ^ octave`, with negative
octaves giving the reciprocal power. -/
def pow2 : Int → ℚ
  | .ofNat n => pow2Nat n
  | .negSucc n => 1 / pow2Nat (n + 1)

/-- `noteToFrequency(note, octave)` (lines 28-40): the twelve equal-tempered
octave-0 base frequencies, scaled by `2^octave`; an unknown name yields `0`. -/
def noteFrequencies (note : String) : Option ℚ :=
  if note = "C" then some (1635/100)
  else if note = "C#" then some (1732/100)
  else if note = "D" then some (1835/100)
  else if note = "D#" then some (1945/100)
  else if note = "E" then some (2060/100)
  else if note = "F" then some (2183/100)
  else if note = "F#" then some (2312/100)
  else if note = "G" then some (2450/100)
  else if note = "G#" then some (2596/100)
  else if note = "A" then some (2750/100)
  else if note = "A#" then some (2914/100)
  else if note = "B" then some (3087/100)
  else none

/-- `noteToFrequency` proper: `baseFreq * Math.pow(2, octave)`, or `0` when
the note name is absent from the table. -/
def noteToFrequency (note : String) (octave : Int) : ℚ :=
  match noteFrequencies note with
  | none => 0
  | some baseFreq => baseFreq * pow2 octave

/-- The registry key `` `${note}-${octave}` `` built by `playNote` (line 56). -/
def noteId (note : String) (octave : Int) : String :=
  note ++ "-" ++ jsIntToString octave

/-- The registry key built by `stopNote` (line 93), whose octave argument can
be `NaN` when it arrives from `stopAllNotes`. -/
def noteIdJ (note : String) (octave : JsNum) : String :=
  note ++ "-" ++ octave.render

/-- In-place update of the map entry at key `k` (JS object mutation through
the reference held by the `Map`; the key set is unchanged). -/
def updateEntry (l : List (String × NoteData)) (k : String) (v : NoteData) :
    List (String × NoteData) :=
  l.map (fun p => if p.1 = k then (p.1, v) else p)

/-- `playNote(note, octave)` (lines 43-89).  `backend` supplies the context a
lazy `initAudioContext` retry would obtain.  Returns the new state and `true`
iff the call throws (reading `.state` of a still-`null` context, line 49). -/
def playNote (backend : Option AudioCtx) (e : AudioEngine) (note : String) (octave : Int) :
    AudioEngine × Bool :=
  let e1 := if e.audioContext.isNone then initAudioContext backend e else e
  match e1.audioContext with
  | none => (e1, true)
  | some ctx =>
    let ctx2 := if ctx.state = CtxState.suspended then resumeCtx ctx else ctx
    let e2 := { e1 with audioContext := some ctx2 }
    let frequency := noteToFrequency note octave
    if frequency = 0 then (e2, false)
    else
      let nid := noteId note octave
      if (e2.activeNotes.lookup nid).isSome then (e2, false)
      else
        let now := ctx2.currentTime
        let osc : Oscillator :=
          { type := e2.waveform, frequency := frequency, startTime := some now, stopTime := none }
        let g0 : GainParam := { events := [], currentValue := 1 }
        let g1 := g0.setValueAtTime 0 now
        let attackTime := now + e2.attack / 1000
        let g2 := g1.linearRampToValueAtTime e2.volume attackTime
        ({ e2 with activeNotes :=
            e2.activeNotes ++ [(nid, { oscillator := osc, gainNode := g2, startTime := now })] },
         false)

/-- `stopNote(note, octave)` (lines 92-114).  `wallNow` is the wall-clock time
(ms) at which the call runs, used to anchor the `setTimeout` cleanup timer of
delay `releaseTime * 1000` ms.  Returns `true` iff the call throws (reading
`currentTime` of a `null` context once a voice was found). -/
def stopNote (wallNow : ℚ) (e : AudioEngine) (note : String) (octave : JsNum) :
    AudioEngine × Bool :=
  let nid := noteIdJ note octave
  match e.activeNotes.lookup nid with
  | none => (e, false)
  | some noteData =>
    match e.audioContext with
    | none => (e, true)
    | some ctx =>
      let releaseTime := e.release / 1000
      let currentTime := ctx.currentTime
      let g := noteData.gainNode.cancelScheduledValues currentTime
      let g := g.setValueAtTime g.value currentTime
      let g := g.linearRampToValueAtTime 0 (currentTime + releaseTime)
      let osc := { noteData.oscillator with stopTime := some (currentTime + releaseTime) }
      let noteData2 := { noteData with oscillator := osc, gainNode := g }
      ({ e with
          activeNotes := updateEntry e.activeNotes nid noteData2,
          pendingTimeouts := e.pendingTimeouts ++
            [{ fireAt := wallNow + releaseTime * 1000, deleteKey := nid }] },
       false)

/-- The body of the `forEach` in `stopAllNotes` (lines 118-121): re-derive the
note and octave by splitting the registry key at `-` and `parseInt`, then
`stopNote`.  A previously thrown exception aborts the iteration. -/
def stopAllStep (wallNow : ℚ) (acc : AudioEngine × Bool) (p : String × NoteData) :
    AudioEngine × Bool :=
  if acc.2 then acc
  else stopNote wallNow acc.1 ((splitDash p.1).headD "") (parseIntJS ((splitDash p.1).getD 1 ""))

/-- `stopAllNotes()` (lines 117-122). -/
def stopAllNotes (wallNow : ℚ) (e : AudioEngine) : AudioEngine × Bool :=
  e.activeNotes.foldl (stopAllStep wallNow) (e, false)

/-- `setWaveform(waveform)` (lines 125-131): stores the setting and retypes
every active oscillator in place. -/
def setWaveform (e : AudioEngine) (waveform : String) : AudioEngine :=
  { e with waveform := waveform,
           activeNotes := e.activeNotes.map
             (fun p => (p.1, { p.2 with oscillator := { p.2.oscillator with type := waveform } })) }

/-- `setVolume(volume)` (lines 134-137): stores the setting, then writes the
master gain; `true` iff that write throws (`masterGain` is `null`). -/
def setVolume (e : AudioEngine) (volume : ℚ) : AudioEngine × Bool :=
  let e1 := { e with volume := volume }
  match e1.masterGain with
  | none => (e1, true)
  | some _ => ({ e1 with masterGain := some volume }, false)

/-- `setOctave(octave)` (lines 140-142). -/
def setOctave (e : AudioEngine) (octave : Int) : AudioEngine :=
  { e with octave := octave }

/-- `setAttack(attack)` (lines 145-147). -/
def setAttack (e : AudioEngine) (attack : ℚ) : AudioEngine :=
  { e with attack := attack }

/-- `setRelease(release)` (lines 150-152). -/
def setRelease (e : AudioEngine) (release : ℚ) : AudioEngine :=
  { e with release := release }

/-- The audio rendering thread advancing the context clock to audio time `t`
and refreshing every gain param's `[[current value]]` slot. -/
def renderTo (t : ℚ) (e : AudioEngine) : AudioEngine :=
  { e with
      audioContext := e.audioContext.map (fun c => { c with currentTime := t }),
      activeNotes := e.activeNotes.map
        (fun p => (p.1, { p.2 with gainNode := p.2.gainNode.renderAt t })) }

/-- A pending `setTimeout` may fire only once the wall clock has reached its
scheduled time (timers never fire early). -/
def canFire (wallNow : ℚ) (t : Timeout) : Prop :=
  t.fireAt ≤ wallNow

/-- All pending cleanup timers firing: each deletes its key from the
registry. -/
def fireAllTimeouts (e : AudioEngine) : AudioEngine :=
  { e with
      activeNotes := e.activeNotes.filter
        (fun p => e.pendingTimeouts.all (fun t => t.deleteKey != p.1)),
      pendingTimeouts := [] }

/-- The identity `stopAllNotes` reconstructs from a registry key: split at
`-`, take the first field as the note and `parseInt` of the second as the
octave, then rebuild the key the way `stopNote` does. -/
def reconstructId (k : String) : String :=
  noteIdJ ((splitDash k).headD "") (parseIntJS ((splitDash k).getD 1 ""))

/-- An engine with a live running context at audio time `t` and no voices:
the state right after a successful construction, with the given volume,
attack and release settings. -/
def engineAt (t vol a r : ℚ) : AudioEngine :=
  { audioContext := some { currentTime := t, state := CtxState.running },
    masterGain := some vol, activeNotes := [], waveform := "sine",
    volume := vol, octave := 2, attack := a, release := r, pendingTimeouts := [] }

/-- A concrete voice record, used to build explicit counterexample states. -/
def sampleNote : NoteData :=
  { oscillator := { type := "sine", frequency := 1648/5, startTime := some 0, stopTime := none },
    gainNode := { events := [AutomationEvent.setValue 0 0], currentValue := 1 },
    startTime := 0 }

/-- Number of registry entries stored under key `k`. -/
def countKey (k : String) (l : List (String × NoteData)) : Nat :=
  (l.filter (fun p => p.1 = k)).length

/-- A fresh engine holding one `C-4` voice (attack `0` ms, release `200` ms,
volume `1/2`, created at audio time `0`). -/
def voiceEngine : AudioEngine :=
  (playNote none (engineAt 0 (1/2) 0 200) "C" 4).1

/-- `voiceEngine` after rendering at audio time `0` and a `stopNote` at wall
time `0`: the `C-4` voice is mid-release. -/
def releasingEngine : AudioEngine :=
  (stopNote 0 (renderTo 0 voiceEngine) "C" (JsNum.int 4)).1

/-- An engine whose context the platform has suspended while a `C-4` voice is
still registered. -/
def suspendedDupEngine : AudioEngine :=
  { engineAt 0 (1/2) 0 200 with
      audioContext := some { currentTime := 0, state := CtxState.suspended },
      activeNotes := [("C-4", sampleNote)] }

/-- An engine holding one voice created at octave `-1`, so its registry key
`C--1` contains a double dash. -/
def negOctaveEngine : AudioEngine :=
  { engineAt 0 (1/2) 0 200 with activeNotes := [("C--1", sampleNote)] }

/-- An engine holding three voices at three different octaves. -/
def threeVoiceEngine : AudioEngine :=
  { engineAt 0 (1/2) 0 200 with
      activeNotes := [("C-2", sampleNote), ("E-3", sampleNote), ("G-4", sampleNote)] }

/-- The `C-4` voice record as `playNote` creates it in `voiceEngine`. -/
def voiceNote : NoteData :=
  { oscillator :=
      { type := "sine", frequency := noteToFrequency "C" 4, startTime := some 0, stopTime := none },
    gainNode :=
      { events := [AutomationEvent.setValue 0 0, AutomationEvent.linearRamp (0 + 0/1000) (1/2)],
        currentValue := 1 },
    startTime := 0 }

/-- The note record `stopNote` writes back for a found voice `nd` at audio
time `tc` with release duration `rel` seconds (abbreviates the in-place
mutations of lines 103-108). -/
def releasedNote (nd : NoteData) (tc rel : ℚ) : NoteData :=
  { nd with
      oscillator := { nd.oscillator with stopTime := some (tc + rel) },
      gainNode :=
        ((nd.gainNode.cancelScheduledValues tc).setValueAtTime
            (nd.gainNode.cancelScheduledValues tc).value tc).linearRampToValueAtTime 0 (tc + rel) }

/-! ### Registry map lemmas -/

theorem lookup_isSome_iff_mem_keys (k : String) (l : List (String × NoteData)) :
    (l.lookup k).isSome ↔ k ∈ l.map Prod.fst := by
  induction l with
  | nil => simp
  | cons p l ih =>
    obtain ⟨a, b⟩ := p
    rcases eq_or_ne k a with h | h
    · subst h
      simp [List.lookup_cons]
    · simp [List.lookup_cons, beq_false_of_ne h, h, ih]

theorem lookup_isSome_of_countKey_pos (k : String) (l : List (String × NoteData))
    (h : 0 < countKey k l) : (l.lookup k).isSome := by
  induction l with
  | nil => simp [countKey] at h
  | cons p l ih =>
    obtain ⟨a, b⟩ := p
    rcases eq_or_ne k a with hk | hk
    · subst hk
      simp [List.lookup_cons]
    · rw [List.lookup_cons]
      rw [beq_false_of_ne hk]
      apply ih
      simpa [countKey, Ne.symm hk] using h

theorem updateEntry_keys (l : List (String × NoteData)) (k : String) (v : NoteData) :
    (updateEntry l k v).map Prod.fst = l.map Prod.fst := by
  unfold updateEntry
  rw [List.map_map]
  apply List.map_congr_left
  intro p _
  by_cases h : p.1 = k <;> simp [h]

theorem lookup_updateEntry (l : List (String × NoteData)) (k : String) (v : NoteData)
    (h : (l.lookup k).isSome) : (updateEntry l k v).lookup k = some v := by
  induction l with
  | nil => simp at h
  | cons p l ih =>
    obtain ⟨a, b⟩ := p
    rcases eq_or_ne k a with hk | hk
    · subst hk
      simp [updateEntry, List.lookup_cons]
    · have hb := beq_false_of_ne hk
      rw [List.lookup_cons, hb] at h
      unfold updateEntry
      simp only [List.map_cons]
      rw [if_neg (by simpa using Ne.symm hk)]
      rw [List.lookup_cons, hb]
      exact ih h

/-! ### Frequency table lemmas -/

theorem noteFrequencies_pos (note : String) (f : ℚ) (hf : noteFrequencies note = some f) :
    0 < f := by
  rw [noteFrequencies] at hf
  by_cases h0 : note = "C"
  · rw [if_pos h0] at hf
    cases hf
    norm_num
  rw [if_neg h0] at hf
  by_cases h1 : note = "C#"
  · rw [if_pos h1] at hf
    cases hf
    norm_num
  rw [if_neg h1] at hf
  by_cases h2 : note = "D"
  · rw [if_pos h2] at hf
    cases hf
    norm_num
  rw [if_neg h2] at hf
  by_cases h3 : note = "D#"
  · rw [if_pos h3] at hf
    cases hf
    norm_num
  rw [if_neg h3] at hf
  by_cases h4 : note = "E"
  · rw [if_pos h4] at hf
    cases hf
    norm_num
  rw [if_neg h4] at hf
  by_cases h5 : note = "F"
  · rw [if_pos h5] at hf
    cases hf
    norm_num
  rw [if_neg h5] at hf
  by_cases h6 : note = "F#"
  · rw [if_pos h6] at hf
    cases hf
    norm_num
  rw [if_neg h6] at hf
  by_cases h7 : note = "G"
  · rw [if_pos h7] at hf
    cases hf
    norm_num
  rw [if_neg h7] at hf
  by_cases h8 : note = "G#"
  · rw [if_pos h8] at hf
    cases hf
    norm_num
  rw [if_neg h8] at hf
  by_cases h9 : note = "A"
  · rw [if_pos h9] at hf
    cases hf
    norm_num
  rw [if_neg h9] at hf
  by_cases h10 : note = "A#"
  · rw [if_pos h10] at hf
    cases hf
    norm_num
  rw [if_neg h10] at hf
  by_cases h11 : note = "B"
  · rw [if_pos h11] at hf
    cases hf
    norm_num
  rw [if_neg h11] at hf
  cases hf

theorem pow2Nat_pos (n : Nat) : 0 < pow2Nat n := by
  induction n with
  | zero => norm_num [pow2Nat]
  | succ m ih =>
    rw [pow2Nat]
    linarith

theorem pow2_pos (k : Int) : 0 < pow2 k := by
  cases k with
  | ofNat n => exact pow2Nat_pos n
  | negSucc n => exact div_pos one_pos (pow2Nat_pos (n + 1))

theorem pow2_add_one (k : Int) : pow2 (k + 1) = 2 * pow2 k := by
  cases k with
  | ofNat n => rfl
  | negSucc n =>
    cases n with
    | zero =>
      show pow2Nat 0 = 2 * (1 / pow2Nat 1)
      norm_num [pow2Nat]
    | succ m =>
      have hp : pow2Nat (m + 1) ≠ 0 := ne_of_gt (pow2Nat_pos (m + 1))
      show pow2 (Int.negSucc m) = 2 * pow2 (Int.negSucc (m + 1))
      rw [pow2, pow2]
      have h1 : pow2Nat (m + 1 + 1) = 2 * pow2Nat (m + 1) := rfl
      rw [h1]
      field_simp

theorem noteToFrequency_eq (note : String) (f : ℚ) (hf : noteFrequencies note = some f)
    (m : Int) : noteToFrequency note m = f * pow2 m := by
  unfold noteToFrequency
  rw [hf]


/-! ### C6: frequency table determinism and octave doubling -/

/-- C6: for every valid note name, `noteToFrequency` is a pure function of its
arguments (determinism is definitional in the embedding) and doubles with each
octave step, hence is strictly increasing in the octave. -/
theorem C6_frequency_octave_doubling (note : String) (k : Int)
    (h : (noteFrequencies note).isSome) :
    noteToFrequency note (k + 1) = 2 * noteToFrequency note k ∧
    noteToFrequency note k < noteToFrequency note (k + 1) := by
  obtain ⟨f, hf⟩ := Option.isSome_iff_exists.mp h
  have hpos : 0 < f := noteFrequencies_pos note f hf
  have h2k : (0 : ℚ) < pow2 k := pow2_pos k
  rw [noteToFrequency_eq note f hf, noteToFrequency_eq note f hf, pow2_add_one]
  constructor
  · ring
  · nlinarith [mul_pos hpos h2k]

theorem C6_witness :
    (noteFrequencies "C").isSome ∧
    (noteToFrequency "C" (0 + 1) = 2 * noteToFrequency "C" 0 ∧
      noteToFrequency "C" 0 < noteToFrequency "C" (0 + 1)) :=
  ⟨rfl, C6_frequency_octave_doubling "C" 0 rfl⟩

/-! ### C8: unknown note names -/

/-- C8: an unknown note name makes the frequency lookup yield `0`, and
`playNote` then returns without registering a voice, starting an oscillator,
or throwing; the engine is unchanged apart from the lazy resume of a
suspended context, which precedes the frequency check. -/
theorem C8_invalid_note_declines (note : String) (octave : Int) (e : AudioEngine)
    (ctx : AudioCtx) (h1 : noteFrequencies note = none) (h2 : e.audioContext = some ctx) :
    noteToFrequency note octave = 0 ∧
    playNote none e note octave =
      ({ e with audioContext := some { ctx with state := CtxState.running } }, false) := by
  have hfz : noteToFrequency note octave = 0 := by
    unfold noteToFrequency
    rw [h1]
  refine ⟨hfz, ?_⟩
  obtain ⟨t, st⟩ := ctx
  cases st <;> simp [playNote, h2, hfz, resumeCtx]

theorem C8_witness :
    noteFrequencies "H" = none ∧
    (engineAt 0 (1/2) 0 200).audioContext =
      some ({ currentTime := 0, state := CtxState.running } : AudioCtx) ∧
    (noteToFrequency "H" 4 = 0 ∧
      playNote none (engineAt 0 (1/2) 0 200) "H" 4 =
        ({ engineAt 0 (1/2) 0 200 with
            audioContext := some ({ currentTime := 0, state := CtxState.running } : AudioCtx) }, false)) :=
  ⟨rfl, rfl,
    C8_invalid_note_declines "H" 4 (engineAt 0 (1/2) 0 200)
      ({ currentTime := 0, state := CtxState.running } : AudioCtx) rfl rfl⟩

/-! ### Evaluation lemmas for digit rendering -/

theorem natDigits_lt (n : Nat) (h : n < 10) : natDigits n = [Nat.digitChar n] := by
  unfold natDigits
  exact if_pos h

theorem jsIntToString_four : jsIntToString 4 = "4" := by
  unfold jsIntToString natToString
  rw [if_neg (by omega : ¬((4:Int) < 0))]
  rw [show ((4:Int)).natAbs = 4 from rfl, natDigits_lt 4 (by omega)]
  rfl

theorem noteId_C4 : noteId "C" 4 = "C-4" := by
  unfold noteId
  rw [jsIntToString_four]
  rfl

theorem freqC4_ne : noteToFrequency "C" 4 ≠ 0 := by
  have : noteToFrequency "C" 4 = 1635/100 * pow2 4 := noteToFrequency_eq "C" _ rfl 4
  rw [this]
  norm_num [pow2, pow2Nat]

/-- C1 counterexample: with a platform-suspended context and a registered
`C-4` voice, a duplicate `playNote("C", 4)` leaves the registry untouched but
does mutate the engine (it resumes the context before the duplicate check),
so it is not free of all side effects. -/
theorem C1_resume_side_effect_cex :
    (playNote none suspendedDupEngine "C" 4).1.activeNotes = suspendedDupEngine.activeNotes ∧
    (playNote none suspendedDupEngine "C" 4).1 ≠ suspendedDupEngine := by
  have hmain : playNote none suspendedDupEngine "C" 4 =
      ({ suspendedDupEngine with
          audioContext := some { currentTime := 0, state := CtxState.running } }, false) := by
    simp [playNote, suspendedDupEngine, engineAt, resumeCtx, freqC4_ne, noteId_C4,
      List.lookup_cons]
  rw [hmain]
  refine ⟨rfl, fun h => ?_⟩
  have := congrArg AudioEngine.audioContext h
  simp [suspendedDupEngine, engineAt] at this

/-- C1 (amended): a `playNote` for an identity already in the registry
creates no voice and leaves the engine unchanged apart from possibly resuming
a suspended context (the resume precedes the duplicate check), so consecutive
duplicate `noteOn` calls keep exactly one voice under that identity. -/
theorem C1_duplicate_noteOn_noop (e : AudioEngine) (ctx : AudioCtx) (note : String)
    (octave : Int) (hc : e.audioContext = some ctx)
    (hk : countKey (noteId note octave) e.activeNotes = 1) :
    playNote none e note octave =
      ({ e with audioContext := some { ctx with state := CtxState.running } }, false) ∧
    countKey (noteId note octave) (playNote none e note octave).1.activeNotes = 1 := by
  have hs : (e.activeNotes.lookup (noteId note octave)).isSome :=
    lookup_isSome_of_countKey_pos _ _ (by omega)
  have hmain : playNote none e note octave =
      ({ e with audioContext := some { ctx with state := CtxState.running } }, false) := by
    obtain ⟨t, st⟩ := ctx
    by_cases hfz : noteToFrequency note octave = 0 <;>
      cases st <;> simp [playNote, hc, hfz, hs, resumeCtx]
  exact ⟨hmain, by rw [hmain]; exact hk⟩

theorem C1_witness :
    suspendedDupEngine.audioContext =
      some ({ currentTime := 0, state := CtxState.suspended } : AudioCtx) ∧
    countKey (noteId "C" 4) suspendedDupEngine.activeNotes = 1 ∧
    (playNote none suspendedDupEngine "C" 4 =
      ({ suspendedDupEngine with
          audioContext := some ({ currentTime := 0, state := CtxState.running } : AudioCtx) }, false) ∧
     countKey (noteId "C" 4) (playNote none suspendedDupEngine "C" 4).1.activeNotes = 1) :=
  ⟨rfl, by rw [noteId_C4]; rfl, C1_duplicate_noteOn_noop suspendedDupEngine
    ({ currentTime := 0, state := CtxState.suspended } : AudioCtx) "C" 4 rfl
    (by rw [noteId_C4]; rfl)⟩

/-! ### C9: unavailable audio backend -/

/-- C9: with an unavailable backend the engine is still constructible
(`audioContext` and `masterGain` stay `null`), and `setWaveform`, `setOctave`,
`setAttack`, `setRelease` are safe no-ops on the settings; but `setVolume`
throws (writing the gain of the `null` master node), and `playNote` — after
its lazy re-initialization attempt fails — throws reading `.state` of the
`null` context instead of silently producing no sound. -/
theorem C9_backend_unavailable_crashes :
    (mkAudioEngine none).audioContext = none ∧
    (mkAudioEngine none).masterGain = none ∧
    (setVolume (mkAudioEngine none) (3/10)).2 = true ∧
    (playNote none (mkAudioEngine none) "C" 4).2 = true ∧
    setWaveform (mkAudioEngine none) "square" = { mkAudioEngine none with waveform := "square" } ∧
    setOctave (mkAudioEngine none) 3 = { mkAudioEngine none with octave := 3 } ∧
    setAttack (mkAudioEngine none) 5 = { mkAudioEngine none with attack := 5 } ∧
    setRelease (mkAudioEngine none) 500 = { mkAudioEngine none with release := 500 } :=
  ⟨rfl, rfl, rfl, rfl, rfl, rfl, rfl, rfl⟩

theorem noteIdJ_C4 : noteIdJ "C" (JsNum.int 4) = "C-4" := by
  unfold noteIdJ
  rw [show JsNum.render (JsNum.int 4) = jsIntToString 4 from rfl, jsIntToString_four]
  rfl

theorem voiceEngine_eq :
    voiceEngine = { engineAt 0 (1/2) 0 200 with activeNotes := [("C-4", voiceNote)] } := by
  have hcs : CtxState.running ≠ CtxState.suspended := by decide
  unfold voiceEngine voiceNote
  norm_num [playNote, engineAt, freqC4_ne, noteId_C4, GainParam.setValueAtTime,
    GainParam.linearRampToValueAtTime, hcs]

theorem stopNote_found (w : ℚ) (e : AudioEngine) (note : String) (j : JsNum) (ctx : AudioCtx)
    (nd : NoteData) (hc : e.audioContext = some ctx)
    (hfound : e.activeNotes.lookup (noteIdJ note j) = some nd) :
    stopNote w e note j =
      ({ e with
          activeNotes := updateEntry e.activeNotes (noteIdJ note j)
            (releasedNote nd ctx.currentTime (e.release / 1000)),
          pendingTimeouts := e.pendingTimeouts ++
            [{ fireAt := w + e.release / 1000 * 1000, deleteKey := noteIdJ note j }] }, false) := by
  simp only [stopNote, hfound, hc, releasedNote]

theorem stopNote_absent (w : ℚ) (e : AudioEngine) (note : String) (j : JsNum)
    (h : e.activeNotes.lookup (noteIdJ note j) = none) :
    stopNote w e note j = (e, false) := by
  simp only [stopNote, h]

/-- C5 counterexample: a voice created with release `200` ms, released after
`setRelease(1000)`, gets a release ramp that ends `1000/1000` s after the
note-off, not `200/1000` s: the release duration is read from the shared
setting at note-off time, not from the settings in force at creation. -/
theorem C5_release_uses_current_setting_cex :
    ((stopNote 100 (renderTo (1/10) (setRelease voiceEngine 1000)) "C"
        (JsNum.int 4)).1.activeNotes.lookup "C-4").map (fun nd => nd.oscillator.stopTime) =
      some (some (1/10 + 1000/1000)) ∧
    (1/10 + 1000/1000 : ℚ) ≠ 1/10 + 200/1000 := by
  constructor
  · rw [voiceEngine_eq]
    have h1 : ((renderTo (1/10) (setRelease
        { engineAt 0 (1/2) 0 200 with activeNotes := [("C-4", voiceNote)] } 1000)).activeNotes.lookup
          (noteIdJ "C" (JsNum.int 4))) =
        some { voiceNote with gainNode := voiceNote.gainNode.renderAt (1/10) } := by
      rw [noteIdJ_C4]
      simp [renderTo, setRelease, engineAt, List.lookup_cons]
    rw [stopNote_found 100 _ "C" (JsNum.int 4) { currentTime := 1/10, state := CtxState.running }
      _ (by simp [renderTo, setRelease, engineAt]) h1]
    rw [noteIdJ_C4]
    simp [updateEntry, List.lookup_cons, releasedNote, setRelease, renderTo, engineAt]
  · norm_num

/-- C5 (amended): `setOctave`, `setAttack` and `setRelease` update only the
respective shared setting — in particular an existing voice's frequency and
already scheduled attack ramp are untouched — but the release duration is
read from the shared setting when `stopNote` runs, so a `setRelease` also
changes the eventual release ramp of voices that already exist. -/
theorem C5_setters_future_voices_only (e : AudioEngine) (ctx : AudioCtx) (note : String)
    (j : JsNum) (nd : NoteData) (o : Int) (a r w : ℚ)
    (hc : e.audioContext = some ctx)
    (hn : e.activeNotes.lookup (noteIdJ note j) = some nd) :
    setOctave e o = { e with octave := o } ∧
    setAttack e a = { e with attack := a } ∧
    setRelease e r = { e with release := r } ∧
    ((stopNote w (setRelease e r) note j).1.activeNotes.lookup (noteIdJ note j)).map
        (fun nd2 => nd2.oscillator.stopTime) = some (some (ctx.currentTime + r / 1000)) := by
  refine ⟨rfl, rfl, rfl, ?_⟩
  have hs : (e.activeNotes.lookup (noteIdJ note j)).isSome := by
    rw [hn]
    rfl
  rw [stopNote_found w (setRelease e r) note j ctx nd hc hn]
  simp only [setRelease]
  rw [lookup_updateEntry _ _ _ hs]
  rfl

theorem C5_witness :
    voiceEngine.audioContext = some ({ currentTime := 0, state := CtxState.running } : AudioCtx) ∧
    voiceEngine.activeNotes.lookup (noteIdJ "C" (JsNum.int 4)) = some voiceNote ∧
    (setOctave voiceEngine 3 = { voiceEngine with octave := 3 } ∧
     setAttack voiceEngine 5 = { voiceEngine with attack := 5 } ∧
     setRelease voiceEngine 1000 = { voiceEngine with release := 1000 } ∧
     ((stopNote 100 (setRelease voiceEngine 1000) "C" (JsNum.int 4)).1.activeNotes.lookup
         (noteIdJ "C" (JsNum.int 4))).map (fun nd2 => nd2.oscillator.stopTime) =
       some (some ((0:ℚ) + 1000 / 1000))) :=
  ⟨by rw [voiceEngine_eq]; rfl, by rw [voiceEngine_eq, noteIdJ_C4]; rfl,
    C5_setters_future_voices_only voiceEngine
      ({ currentTime := 0, state := CtxState.running } : AudioCtx) "C" (JsNum.int 4) voiceNote
      3 5 1000 100 (by rw [voiceEngine_eq]; rfl)
      (by rw [voiceEngine_eq, noteIdJ_C4]; rfl)⟩

theorem releasingEngine_eq :
    releasingEngine =
      { engineAt 0 (1/2) 0 200 with
          activeNotes := [("C-4",
            releasedNote { voiceNote with gainNode := voiceNote.gainNode.renderAt 0 } 0
              (200/1000))],
          pendingTimeouts := [{ fireAt := 0 + 200/1000 * 1000, deleteKey := "C-4" }] } := by
  unfold releasingEngine
  rw [voiceEngine_eq]
  have hrend : renderTo 0 { engineAt 0 (1/2) 0 200 with activeNotes := [("C-4", voiceNote)] } =
      { engineAt 0 (1/2) 0 200 with
          activeNotes := [("C-4", { voiceNote with gainNode := voiceNote.gainNode.renderAt 0 })] } := by
    simp [renderTo, engineAt]
  rw [hrend]
  rw [stopNote_found 0 _ "C" (JsNum.int 4) { currentTime := 0, state := CtxState.running }
    { voiceNote with gainNode := voiceNote.gainNode.renderAt 0 } rfl
    (by rw [noteIdJ_C4]; rfl)]
  rw [noteIdJ_C4]
  simp [updateEntry, engineAt]

/-- C7 counterexample: a second `noteOff` for a voice still mid-release does
not throw, but it is not free of effects beyond the first release: it mutates
the engine again (restarting the release ramp and scheduling an additional
cleanup timer). -/
theorem C7_second_noteOff_not_noop_cex :
    (stopNote 50 releasingEngine "C" (JsNum.int 4)).2 = false ∧
    (stopNote 50 releasingEngine "C" (JsNum.int 4)).1 ≠ releasingEngine := by
  rw [stopNote_found 50 releasingEngine "C" (JsNum.int 4)
    { currentTime := 0, state := CtxState.running }
    (releasedNote { voiceNote with gainNode := voiceNote.gainNode.renderAt 0 } 0 (200/1000))
    (by rw [releasingEngine_eq]; rfl)
    (by rw [releasingEngine_eq, noteIdJ_C4]; rfl)]
  refine ⟨rfl, fun h => ?_⟩
  have hlen := congrArg (fun x => x.pendingTimeouts.length) h
  rw [releasingEngine_eq] at hlen
  simp [releasingEngine_eq] at hlen

/-- C7 (amended): a `noteOff` for an identity with no active voice is a safe
no-op (no exception, no state change); a second `noteOff` while the voice is
still releasing also raises no exception, but it is not effect-free: it
re-releases the voice from its current gain and schedules one more cleanup
timer (two in total after two `noteOff`s). -/
theorem C7_stray_noteOff_safe (w w' : ℚ) (e e0 : AudioEngine) (note : String) (j : JsNum)
    (ctx : AudioCtx) (nd : NoteData)
    (h0 : e0.activeNotes.lookup (noteIdJ note j) = none)
    (hc : e.audioContext = some ctx)
    (hfound : e.activeNotes.lookup (noteIdJ note j) = some nd) :
    stopNote w e0 note j = (e0, false) ∧
    (stopNote w' (stopNote w e note j).1 note j).2 = false ∧
    (stopNote w' (stopNote w e note j).1 note j).1.pendingTimeouts.length =
      e.pendingTimeouts.length + 2 := by
  have hs : (e.activeNotes.lookup (noteIdJ note j)).isSome := by
    rw [hfound]
    rfl
  refine ⟨stopNote_absent w e0 note j h0, ?_, ?_⟩
  · rw [stopNote_found w e note j ctx nd hc hfound]
    rw [stopNote_found w' _ note j ctx _ (by simpa using hc) (by
      simpa using lookup_updateEntry e.activeNotes (noteIdJ note j)
        (releasedNote nd ctx.currentTime (e.release / 1000)) hs)]
  · rw [stopNote_found w e note j ctx nd hc hfound]
    rw [stopNote_found w' _ note j ctx _ (by simpa using hc) (by
      simpa using lookup_updateEntry e.activeNotes (noteIdJ note j)
        (releasedNote nd ctx.currentTime (e.release / 1000)) hs)]
    simp

theorem C7_witness :
    (engineAt 0 (1/2) 0 200).activeNotes.lookup (noteIdJ "C" (JsNum.int 4)) = none ∧
    (renderTo 0 voiceEngine).audioContext =
      some ({ currentTime := 0, state := CtxState.running } : AudioCtx) ∧
    (renderTo 0 voiceEngine).activeNotes.lookup (noteIdJ "C" (JsNum.int 4)) =
      some { voiceNote with gainNode := voiceNote.gainNode.renderAt 0 } ∧
    (stopNote 0 (engineAt 0 (1/2) 0 200) "C" (JsNum.int 4) = (engineAt 0 (1/2) 0 200, false) ∧
     (stopNote 50 (stopNote 0 (renderTo 0 voiceEngine) "C" (JsNum.int 4)).1 "C" (JsNum.int 4)).2 =
       false ∧
     (stopNote 50 (stopNote 0 (renderTo 0 voiceEngine) "C" (JsNum.int 4)).1 "C"
         (JsNum.int 4)).1.pendingTimeouts.length =
       (renderTo 0 voiceEngine).pendingTimeouts.length + 2) :=
  ⟨rfl,
   by rw [voiceEngine_eq]; rfl,
   by rw [voiceEngine_eq, noteIdJ_C4]; simp [renderTo, engineAt],
   C7_stray_noteOff_safe 0 50 (renderTo 0 voiceEngine) (engineAt 0 (1/2) 0 200) "C"
     (JsNum.int 4) ({ currentTime := 0, state := CtxState.running } : AudioCtx)
     { voiceNote with gainNode := voiceNote.gainNode.renderAt 0 }
     rfl
     (by rw [voiceEngine_eq]; rfl)
     (by rw [voiceEngine_eq, noteIdJ_C4]; simp [renderTo, engineAt])⟩

theorem noteIdJ_E4 : noteIdJ "E" (JsNum.int 4) = "E-4" := by
  unfold noteIdJ
  rw [show JsNum.render (JsNum.int 4) = jsIntToString 4 from rfl, jsIntToString_four]
  rfl

theorem noteId_E4 : noteId "E" 4 = "E-4" := by
  unfold noteId
  rw [jsIntToString_four]
  rfl

theorem valueFrom_cons_le (t pt pv : ℚ) (ev : AutomationEvent) (rest : List AutomationEvent)
    (h : eventTime ev ≤ t) :
    valueFrom t pt pv (ev :: rest) = valueFrom t (eventTime ev) (eventVal ev) rest := by
  rw [valueFrom.eq_def]
  dsimp only
  rw [if_pos h]

theorem valueFrom_ramp_pending (t pt pv te ve : ℚ) (hgt : ¬ te ≤ t) (hpt : ¬ te ≤ pt) :
    valueFrom t pt pv [AutomationEvent.linearRamp te ve] =
      pv + (ve - pv) * (t - pt) / (te - pt) := by
  rw [valueFrom.eq_def]
  dsimp only
  rw [if_neg (show ¬ eventTime (AutomationEvent.linearRamp te ve) ≤ t from hgt)]
  exact if_neg hpt

theorem valueFrom_midAttack (t0 a V tc : ℚ) (ha : 0 < a) (h1 : t0 < tc)
    (h2 : tc < t0 + a / 1000) :
    timelineValueAt
        [AutomationEvent.setValue t0 0, AutomationEvent.linearRamp (t0 + a / 1000) V] tc =
      V * (tc - t0) * 1000 / a := by
  unfold timelineValueAt
  rw [valueFrom_cons_le tc 0 1 (AutomationEvent.setValue t0 0) _ h1.le]
  rw [show eventTime (AutomationEvent.setValue t0 0) = t0 from rfl,
    show eventVal (AutomationEvent.setValue t0 0) = 0 from rfl]
  rw [valueFrom_ramp_pending tc t0 0 (t0 + a / 1000) V (not_le.mpr h2)
    (by intro hle; nlinarith)]
  rw [show t0 + a / 1000 - t0 = a / 1000 from by ring, div_div_eq_mul_div]
  ring

theorem playNote_fresh (note : String) (f : ℚ) (o : Int) (t V a r : ℚ)
    (hf : noteFrequencies note = some f) :
    playNote none (engineAt t V a r) note o =
      ({ engineAt t V a r with
          activeNotes := [(noteId note o,
            { oscillator :=
                { type := "sine", frequency := noteToFrequency note o,
                  startTime := some t, stopTime := none },
              gainNode :=
                { events := [AutomationEvent.setValue t 0,
                             AutomationEvent.linearRamp (t + a / 1000) V],
                  currentValue := 1 },
              startTime := t })] }, false) := by
  have hfz : noteToFrequency note o ≠ 0 := by
    rw [noteToFrequency_eq note f hf]
    exact mul_ne_zero (ne_of_gt (noteFrequencies_pos note f hf)) (ne_of_gt (pow2_pos o))
  have hcs : CtxState.running ≠ CtxState.suspended := by decide
  simp [playNote, engineAt, hfz, hcs, GainParam.setValueAtTime,
    GainParam.linearRampToValueAtTime]

/-- C2: a `noteOff` arriving mid-attack cancels the pending attack ramp,
re-anchors the gain at the value the rendering thread last computed — the
live mid-attack level, strictly between silence and the target volume — and
ramps linearly from there to `0` over `releaseMs`; the release neither
restarts from zero nor jumps to full volume. -/
theorem C2_release_from_live_gain (t0 a V r tc : ℚ) (hV : 0 < V) (ha : 0 < a)
    (h1 : t0 < tc) (h2 : tc < t0 + a / 1000) :
    (((stopNote 0 (renderTo tc (playNote none (engineAt t0 V a r) "E" 4).1) "E"
          (JsNum.int 4)).1.activeNotes.lookup "E-4").map (fun nd => nd.gainNode.events)) =
      some [AutomationEvent.setValue t0 0,
            AutomationEvent.setValue tc (V * (tc - t0) * 1000 / a),
            AutomationEvent.linearRamp (tc + r / 1000) 0] ∧
    0 < V * (tc - t0) * 1000 / a ∧ V * (tc - t0) * 1000 / a < V := by
  rw [playNote_fresh "E" (2060/100) 4 t0 V a r rfl]
  set nd0 : NoteData :=
    { oscillator :=
        { type := "sine", frequency := noteToFrequency "E" 4,
          startTime := some t0, stopTime := none },
      gainNode :=
        { events := [AutomationEvent.setValue t0 0,
                     AutomationEvent.linearRamp (t0 + a / 1000) V],
          currentValue := 1 },
      startTime := t0 } with hnd0
  have hrend : renderTo tc ({ engineAt t0 V a r with activeNotes := [(noteId "E" 4, nd0)] } :
      AudioEngine) =
      { engineAt t0 V a r with
          audioContext := some { currentTime := tc, state := CtxState.running },
          activeNotes := [(noteId "E" 4, { nd0 with gainNode := nd0.gainNode.renderAt tc })] } := by
    simp [renderTo, engineAt]
  rw [hrend]
  have hfound : ({ engineAt t0 V a r with
      audioContext := some { currentTime := tc, state := CtxState.running },
      activeNotes := [(noteId "E" 4,
        { nd0 with gainNode := nd0.gainNode.renderAt tc })] } : AudioEngine).activeNotes.lookup
        (noteIdJ "E" (JsNum.int 4)) =
      some { nd0 with gainNode := nd0.gainNode.renderAt tc } := by
    rw [noteIdJ_E4, noteId_E4]
    simp [List.lookup_cons]
  rw [stopNote_found 0 _ "E" (JsNum.int 4) { currentTime := tc, state := CtxState.running } _
    rfl hfound]
  have hv : 0 < V * (tc - t0) * 1000 / a :=
    div_pos (mul_pos (mul_pos hV (sub_pos.mpr h1)) (by norm_num)) ha
  have hvV : V * (tc - t0) * 1000 / a < V := by
    rw [div_lt_iff₀ ha]
    nlinarith [mul_lt_mul_of_pos_left (show (tc - t0) * 1000 < a by linarith) hV]
  refine ⟨?_, hv, hvV⟩
  rw [noteIdJ_E4, noteId_E4]
  have hkeep : ¬ (eventTime (AutomationEvent.linearRamp (t0 + a / 1000) V) < tc) :=
    not_lt.mpr h2.le
  simp [updateEntry, List.lookup_cons, releasedNote, GainParam.cancelScheduledValues,
    GainParam.setValueAtTime, GainParam.linearRampToValueAtTime, GainParam.value,
    GainParam.renderAt, engineAt, List.filter_cons, eventTime, h1, hkeep]
  rw [valueFrom_midAttack t0 a V tc ha h1 h2]
  rw [if_neg (show ¬ (t0 + a / 1000 < tc) from not_lt.mpr h2.le)]
  rfl

theorem C2_witness :
    ((0:ℚ) < 1/2 ∧ (0:ℚ) < 1000 ∧ (0:ℚ) < 1/10 ∧ (1/10:ℚ) < 0 + 1000 / 1000) ∧
    ((((stopNote 0 (renderTo (1/10) (playNote none (engineAt 0 (1/2) 1000 200) "E" 4).1) "E"
          (JsNum.int 4)).1.activeNotes.lookup "E-4").map (fun nd => nd.gainNode.events)) =
      some [AutomationEvent.setValue 0 0,
            AutomationEvent.setValue (1/10) (1/2 * (1/10 - 0) * 1000 / 1000),
            AutomationEvent.linearRamp (1/10 + 200 / 1000) 0] ∧
     0 < (1/2:ℚ) * (1/10 - 0) * 1000 / 1000 ∧ (1/2:ℚ) * (1/10 - 0) * 1000 / 1000 < 1/2) :=
  ⟨⟨by norm_num, by norm_num, by norm_num, by norm_num⟩,
    C2_release_from_live_gain 0 1000 (1/2) 200 (1/10) (by norm_num) (by norm_num)
      (by norm_num) (by norm_num)⟩

theorem valueFrom_last (t : ℚ) (evs : List AutomationEvent) (ev : AutomationEvent)
    (hall : ∀ x ∈ evs, eventTime x ≤ t) (hev : eventTime ev ≤ t) :
    ∀ pt pv, valueFrom t pt pv (evs ++ [ev]) = eventVal ev := by
  induction evs with
  | nil =>
    intro pt pv
    rw [List.nil_append, valueFrom_cons_le t pt pv ev [] hev]
    rfl
  | cons x xs ih =>
    intro pt pv
    rw [List.cons_append, valueFrom_cons_le t pt pv x _ (hall x (by simp))]
    exact ih (fun y hy => hall y (by simp [hy])) _ _

/-- C3 (amended): `stopNote` schedules exactly one cleanup timer, `releaseMs`
of wall-clock delay after the call; a timer never fires before its scheduled
time, so the registry entry is destroyed no earlier than `releaseMs` of
wall-clock time after the release began, and when the audio clock advances in
lockstep with the wall clock the released gain timeline has already reached
`0` at any legal firing time.  (Under drift — an audio clock slower than the
wall clock — destruction can precede audible silence; see the
counterexample.) -/
theorem C3_destroy_after_release_wallclock (w : ℚ) (e : AudioEngine) (ctx : AudioCtx)
    (note : String) (j : JsNum) (nd : NoteData)
    (hc : e.audioContext = some ctx)
    (hfound : e.activeNotes.lookup (noteIdJ note j) = some nd)
    (hr : 0 ≤ e.release) :
    (stopNote w e note j).1.pendingTimeouts =
      e.pendingTimeouts ++
        [{ fireAt := w + e.release / 1000 * 1000, deleteKey := noteIdJ note j }] ∧
    (∀ wallNow : ℚ,
      canFire wallNow { fireAt := w + e.release / 1000 * 1000, deleteKey := noteIdJ note j } →
      e.release ≤ wallNow - w) ∧
    (∀ wallNow : ℚ,
      canFire wallNow { fireAt := w + e.release / 1000 * 1000, deleteKey := noteIdJ note j } →
      ∀ nd2, (stopNote w e note j).1.activeNotes.lookup (noteIdJ note j) = some nd2 →
        timelineValueAt nd2.gainNode.events (ctx.currentTime + (wallNow - w) / 1000) = 0) := by
  have hms : e.release / 1000 * 1000 = e.release := div_mul_cancel₀ e.release (by norm_num)
  have hwall : ∀ wallNow : ℚ,
      canFire wallNow { fireAt := w + e.release / 1000 * 1000, deleteKey := noteIdJ note j } →
      e.release ≤ wallNow - w := by
    intro wallNow hf
    unfold canFire at hf
    simp only [hms] at hf
    linarith
  refine ⟨by rw [stopNote_found w e note j ctx nd hc hfound], hwall, ?_⟩
  intro wallNow hf nd2 hnd2
  have hrel : e.release ≤ wallNow - w := hwall wallNow hf
  have hs : (e.activeNotes.lookup (noteIdJ note j)).isSome := by
    rw [hfound]
    rfl
  rw [stopNote_found w e note j ctx nd hc hfound] at hnd2
  simp only at hnd2
  rw [lookup_updateEntry _ _ _ hs] at hnd2
  injection hnd2 with hnd2
  subst hnd2
  have htcT : ctx.currentTime ≤ ctx.currentTime + (wallNow - w) / 1000 := by
    have h0 : (0:ℚ) ≤ (wallNow - w) / 1000 := by linarith
    linarith
  have hev : eventTime (AutomationEvent.linearRamp (ctx.currentTime + e.release / 1000) 0) ≤
      ctx.currentTime + (wallNow - w) / 1000 := by
    show ctx.currentTime + e.release / 1000 ≤ ctx.currentTime + (wallNow - w) / 1000
    have : e.release / 1000 ≤ (wallNow - w) / 1000 := by linarith
    linarith
  have hall : ∀ x ∈ (nd.gainNode.events.filter (fun ev => eventTime ev < ctx.currentTime)) ++
      [AutomationEvent.setValue ctx.currentTime nd.gainNode.currentValue],
      eventTime x ≤ ctx.currentTime + (wallNow - w) / 1000 := by
    intro x hx
    rcases List.mem_append.mp hx with hx | hx
    · have hlt := of_decide_eq_true (List.mem_filter.mp hx).2
      linarith
    · have hx1 : x = AutomationEvent.setValue ctx.currentTime nd.gainNode.currentValue := by
        simpa using hx
      rw [hx1]
      exact htcT
  have hlast := valueFrom_last (ctx.currentTime + (wallNow - w) / 1000)
    ((nd.gainNode.events.filter (fun ev => eventTime ev < ctx.currentTime)) ++
      [AutomationEvent.setValue ctx.currentTime nd.gainNode.currentValue])
    (AutomationEvent.linearRamp (ctx.currentTime + e.release / 1000) 0) hall hev 0 1
  simp only [releasedNote, GainParam.cancelScheduledValues, GainParam.setValueAtTime,
    GainParam.linearRampToValueAtTime, GainParam.value, timelineValueAt]
  exact hlast

/-- C3 counterexample: the cleanup timer of the released `C-4` voice may
legally fire at wall time `200` (its scheduled time) and deletes the registry
entry, yet with a drifted audio clock still at `0` the voice's gain timeline
evaluates to `1/2 ≠ 0` at the current audio time — the entry is destroyed
before the audio has reached silence. -/
theorem C3_early_destroy_under_drift_cex :
    canFire 200 { fireAt := 0 + 200/1000 * 1000, deleteKey := "C-4" } ∧
    releasingEngine.pendingTimeouts = [{ fireAt := 0 + 200/1000 * 1000, deleteKey := "C-4" }] ∧
    (fireAllTimeouts releasingEngine).activeNotes = [] ∧
    ((releasingEngine.activeNotes.lookup "C-4").map
        (fun nd => timelineValueAt nd.gainNode.events 0)) = some (1/2) ∧
    ((1:ℚ)/2) ≠ 0 := by
  refine ⟨by unfold canFire; norm_num, by rw [releasingEngine_eq], ?_, ?_, by norm_num⟩
  · rw [releasingEngine_eq]
    simp [fireAllTimeouts, engineAt]
  · rw [releasingEngine_eq]
    have hlook : (({ engineAt 0 (1/2) 0 200 with
        activeNotes := [("C-4",
          releasedNote { voiceNote with gainNode := voiceNote.gainNode.renderAt 0 } 0
            (200/1000))],
        pendingTimeouts := [{ fireAt := 0 + 200/1000 * 1000, deleteKey := "C-4" }] } :
          AudioEngine).activeNotes.lookup "C-4") =
        some (releasedNote { voiceNote with gainNode := voiceNote.gainNode.renderAt 0 } 0
          (200/1000)) := by
      simp [List.lookup_cons]
    rw [hlook]
    simp only [Option.map_some']
    congr 1
    have hev0 : (releasedNote
        { oscillator := voiceNote.oscillator, gainNode := voiceNote.gainNode.renderAt 0,
          startTime := voiceNote.startTime } 0 (200/1000)).gainNode.events =
        [AutomationEvent.setValue 0
          (timelineValueAt voiceNote.gainNode.events 0),
         AutomationEvent.linearRamp (0 + 200/1000) 0] := by
      simp only [releasedNote, GainParam.cancelScheduledValues, GainParam.setValueAtTime,
        GainParam.linearRampToValueAtTime, GainParam.value, GainParam.renderAt, voiceNote]
      norm_num [List.filter_cons, eventTime]
    rw [hev0]
    have hval : timelineValueAt voiceNote.gainNode.events 0 = 1/2 := by
      unfold voiceNote timelineValueAt
      rw [valueFrom_cons_le 0 0 1 (AutomationEvent.setValue 0 0) _ (by norm_num [eventTime])]
      rw [show eventTime (AutomationEvent.setValue 0 0) = 0 from rfl,
        show eventVal (AutomationEvent.setValue 0 0) = 0 from rfl]
      rw [valueFrom_cons_le 0 0 0 (AutomationEvent.linearRamp (0 + 0/1000) (1/2)) _
        (by norm_num [eventTime])]
      rfl
    rw [hval]
    unfold timelineValueAt
    rw [valueFrom_cons_le 0 0 1 (AutomationEvent.setValue 0 (1/2)) _ (by norm_num [eventTime])]
    rw [show eventTime (AutomationEvent.setValue 0 (1/2)) = 0 from rfl,
      show eventVal (AutomationEvent.setValue 0 (1/2)) = (1/2 : ℚ) from rfl]
    rw [valueFrom_ramp_pending 0 0 (1/2) (0 + 200/1000) 0 (by norm_num) (by norm_num)]
    norm_num

theorem C3_witness :
    (renderTo 0 voiceEngine).audioContext =
      some ({ currentTime := 0, state := CtxState.running } : AudioCtx) ∧
    (renderTo 0 voiceEngine).activeNotes.lookup (noteIdJ "C" (JsNum.int 4)) =
      some { voiceNote with gainNode := voiceNote.gainNode.renderAt 0 } ∧
    0 ≤ (renderTo 0 voiceEngine).release ∧
    ((stopNote 0 (renderTo 0 voiceEngine) "C" (JsNum.int 4)).1.pendingTimeouts =
        (renderTo 0 voiceEngine).pendingTimeouts ++
          [{ fireAt := 0 + (renderTo 0 voiceEngine).release / 1000 * 1000,
             deleteKey := noteIdJ "C" (JsNum.int 4) }] ∧
      (renderTo 0 voiceEngine).release ≤ 200 - 0 ∧
      timelineValueAt
        (releasedNote { voiceNote with gainNode := voiceNote.gainNode.renderAt 0 } 0
            (200 / 1000)).gainNode.events
        (({ currentTime := 0, state := CtxState.running } : AudioCtx).currentTime +
          (200 - 0) / 1000) = 0) := by
  have hc : (renderTo 0 voiceEngine).audioContext =
      some ({ currentTime := 0, state := CtxState.running } : AudioCtx) := by
    rw [voiceEngine_eq]
    rfl
  have hfound : (renderTo 0 voiceEngine).activeNotes.lookup (noteIdJ "C" (JsNum.int 4)) =
      some { voiceNote with gainNode := voiceNote.gainNode.renderAt 0 } := by
    rw [voiceEngine_eq, noteIdJ_C4]
    simp [renderTo, engineAt]
  have hr : 0 ≤ (renderTo 0 voiceEngine).release := by
    rw [voiceEngine_eq]
    norm_num [renderTo, engineAt]
  have h := C3_destroy_after_release_wallclock 0 (renderTo 0 voiceEngine)
    ({ currentTime := 0, state := CtxState.running } : AudioCtx) "C" (JsNum.int 4)
    { voiceNote with gainNode := voiceNote.gainNode.renderAt 0 } hc hfound hr
  have hcf : canFire 200
      { fireAt := 0 + (renderTo 0 voiceEngine).release / 1000 * 1000,
        deleteKey := noteIdJ "C" (JsNum.int 4) } := by
    unfold canFire
    rw [voiceEngine_eq]
    norm_num [renderTo, engineAt]
  have hnd2 : (stopNote 0 (renderTo 0 voiceEngine) "C" (JsNum.int 4)).1.activeNotes.lookup
      (noteIdJ "C" (JsNum.int 4)) =
      some (releasedNote { voiceNote with gainNode := voiceNote.gainNode.renderAt 0 } 0
        (200 / 1000)) := by
    rw [show (stopNote 0 (renderTo 0 voiceEngine) "C" (JsNum.int 4)).1 = releasingEngine from rfl,
      releasingEngine_eq, noteIdJ_C4]
    rfl
  exact ⟨hc, hfound, hr, h.1, h.2.1 200 hcf, h.2.2 200 hcf _ hnd2⟩

theorem stopNote_bundle (w : ℚ) (e : AudioEngine) (note : String) (j : JsNum) (ctx : AudioCtx)
    (hc : e.audioContext = some ctx) :
    (stopNote w e note j).2 = false ∧
    (stopNote w e note j).1.activeNotes.map Prod.fst = e.activeNotes.map Prod.fst ∧
    (stopNote w e note j).1.audioContext = some ctx ∧
    (∀ k, k ∈ e.pendingTimeouts.map Timeout.deleteKey →
      k ∈ (stopNote w e note j).1.pendingTimeouts.map Timeout.deleteKey) ∧
    (noteIdJ note j ∈ e.activeNotes.map Prod.fst →
      (stopNote w e note j).1.pendingTimeouts.map Timeout.deleteKey =
        e.pendingTimeouts.map Timeout.deleteKey ++ [noteIdJ note j]) := by
  cases hl : e.activeNotes.lookup (noteIdJ note j) with
  | none =>
    rw [stopNote_absent w e note j hl]
    refine ⟨rfl, rfl, hc, fun k hk => hk, fun hmem => ?_⟩
    rw [← lookup_isSome_iff_mem_keys] at hmem
    rw [hl] at hmem
    cases hmem
  | some nd =>
    rw [stopNote_found w e note j ctx nd hc hl]
    refine ⟨rfl, ?_, hc, fun k hk => ?_, fun _ => ?_⟩
    · exact updateEntry_keys e.activeNotes (noteIdJ note j)
        (releasedNote nd ctx.currentTime (e.release / 1000))
    · simp only [List.map_append]
      exact List.mem_append_left _ hk
    · simp

theorem stopAll_fold (w : ℚ) (ctx : AudioCtx) (L : List (String × NoteData)) :
    ∀ acc : AudioEngine, acc.audioContext = some ctx →
      (L.foldl (stopAllStep w) (acc, false)).2 = false ∧
      (L.foldl (stopAllStep w) (acc, false)).1.activeNotes.map Prod.fst =
        acc.activeNotes.map Prod.fst ∧
      (L.foldl (stopAllStep w) (acc, false)).1.audioContext = some ctx ∧
      (∀ k, k ∈ acc.pendingTimeouts.map Timeout.deleteKey →
        k ∈ (L.foldl (stopAllStep w) (acc, false)).1.pendingTimeouts.map Timeout.deleteKey) ∧
      (∀ p ∈ L, reconstructId p.1 = p.1 → p.1 ∈ acc.activeNotes.map Prod.fst →
        p.1 ∈ (L.foldl (stopAllStep w) (acc, false)).1.pendingTimeouts.map Timeout.deleteKey) := by
  induction L with
  | nil => exact fun acc hc => ⟨rfl, rfl, hc, fun k hk => hk, fun p hp => absurd hp (by simp)⟩
  | cons p L ih =>
    intro acc hc
    have hstep : stopAllStep w (acc, false) p =
        stopNote w acc ((splitDash p.1).headD "") (parseIntJS ((splitDash p.1).getD 1 "")) := rfl
    obtain ⟨hb2, hbkeys, hbctx, hbtime, hbnew⟩ :=
      stopNote_bundle w acc ((splitDash p.1).headD "") (parseIntJS ((splitDash p.1).getD 1 ""))
        ctx hc
    set e1 := (stopNote w acc ((splitDash p.1).headD "")
      (parseIntJS ((splitDash p.1).getD 1 ""))).1 with he1
    have hpair : stopAllStep w (acc, false) p = (e1, false) := by
      rw [hstep, he1]
      exact Prod.ext rfl hb2
    rw [List.foldl_cons, hpair]
    obtain ⟨ih2, ihkeys, ihctx, ihtime, ihmem⟩ := ih e1 hbctx
    refine ⟨ih2, by rw [ihkeys, hbkeys], ihctx, fun k hk => ihtime k (hbtime k hk), ?_⟩
    intro q hq hrt hqk
    rcases List.mem_cons.mp hq with hq | hq
    · subst hq
      have : q.1 ∈ e1.pendingTimeouts.map Timeout.deleteKey := by
        rw [he1]
        have := hbnew (by rw [show noteIdJ ((splitDash q.1).headD "")
          (parseIntJS ((splitDash q.1).getD 1 "")) = reconstructId q.1 from rfl, hrt]; exact hqk)
        rw [show noteIdJ ((splitDash q.1).headD "")
          (parseIntJS ((splitDash q.1).getD 1 "")) = reconstructId q.1 from rfl, hrt] at this
        rw [this]
        simp
      exact ihtime q.1 this
    · exact ihmem q hq hrt (by rw [hbkeys]; exact hqk)

theorem stopAll_clears (w : ℚ) (e : AudioEngine) (ctx : AudioCtx)
    (hc : e.audioContext = some ctx)
    (hwf : ∀ p ∈ e.activeNotes, reconstructId p.1 = p.1) :
    (stopAllNotes w e).2 = false ∧ (fireAllTimeouts (stopAllNotes w e).1).activeNotes = [] := by
  obtain ⟨h2, hkeys, -, -, hmem⟩ := stopAll_fold w ctx e.activeNotes e hc
  refine ⟨h2, ?_⟩
  unfold fireAllTimeouts
  rw [List.filter_eq_nil_iff]
  intro p hp
  have hpk : p.1 ∈ e.activeNotes.map Prod.fst := by
    rw [← hkeys]
    exact List.mem_map_of_mem Prod.fst hp
  obtain ⟨q, hq, hq1⟩ := List.mem_map.mp hpk
  have hrt : reconstructId p.1 = p.1 := by
    rw [← hq1]
    exact hwf q hq
  have hin : p.1 ∈ (stopAllNotes w e).1.pendingTimeouts.map Timeout.deleteKey := by
    have h := hmem q hq (by rw [hq1]; exact hrt) (by rw [hq1]; exact hpk)
    rw [hq1] at h
    exact h
  obtain ⟨tmo, htmo, htk⟩ := List.mem_map.mp hin
  intro hall
  rw [List.all_eq_true] at hall
  have := hall tmo htmo
  rw [bne_iff_ne] at this
  exact this htk

theorem jsIntToString_two : jsIntToString 2 = "2" := by
  unfold jsIntToString natToString
  rw [if_neg (by omega : ¬((2:Int) < 0))]
  rw [show ((2:Int)).natAbs = 2 from rfl, natDigits_lt 2 (by omega)]
  rfl

theorem jsIntToString_three : jsIntToString 3 = "3" := by
  unfold jsIntToString natToString
  rw [if_neg (by omega : ¬((3:Int) < 0))]
  rw [show ((3:Int)).natAbs = 3 from rfl, natDigits_lt 3 (by omega)]
  rfl

theorem reconstructId_C2 : reconstructId "C-2" = "C-2" := by
  unfold reconstructId
  show noteIdJ "C" (parseIntJS "2") = "C-2"
  rw [show parseIntJS "2" = JsNum.int 2 from rfl]
  unfold noteIdJ
  rw [show JsNum.render (JsNum.int 2) = jsIntToString 2 from rfl, jsIntToString_two]
  rfl

theorem reconstructId_E3 : reconstructId "E-3" = "E-3" := by
  unfold reconstructId
  show noteIdJ "E" (parseIntJS "3") = "E-3"
  rw [show parseIntJS "3" = JsNum.int 3 from rfl]
  unfold noteIdJ
  rw [show JsNum.render (JsNum.int 3) = jsIntToString 3 from rfl, jsIntToString_three]
  rfl

theorem reconstructId_G4 : reconstructId "G-4" = "G-4" := by
  unfold reconstructId
  show noteIdJ "G" (parseIntJS "4") = "G-4"
  rw [show parseIntJS "4" = JsNum.int 4 from rfl]
  unfold noteIdJ
  rw [show JsNum.render (JsNum.int 4) = jsIntToString 4 from rfl, jsIntToString_four]
  rfl

/-- C4 (amended): when every registry key round-trips through the
split/`parseInt` reconstruction used by `stopAllNotes` — which holds for every
key `playNote` builds from a non-negative octave — `stopAllNotes` throws no
exception, schedules a cleanup timer for every voice, and once all those
timers have fired the registry is empty. -/
theorem C4_stopAll_empties_wellformed_registry (w : ℚ) (e : AudioEngine) (ctx : AudioCtx)
    (hc : e.audioContext = some ctx)
    (hwf : ∀ p ∈ e.activeNotes, reconstructId p.1 = p.1) :
    (stopAllNotes w e).2 = false ∧
    (fireAllTimeouts (stopAllNotes w e).1).activeNotes = [] :=
  stopAll_clears w e ctx hc hwf

theorem C4_witness :
    threeVoiceEngine.audioContext =
      some ({ currentTime := 0, state := CtxState.running } : AudioCtx) ∧
    (∀ p ∈ threeVoiceEngine.activeNotes, reconstructId p.1 = p.1) ∧
    ((stopAllNotes 5 threeVoiceEngine).2 = false ∧
      (fireAllTimeouts (stopAllNotes 5 threeVoiceEngine).1).activeNotes = []) := by
  have hwf : ∀ p ∈ threeVoiceEngine.activeNotes, reconstructId p.1 = p.1 := by
    intro p hp
    simp only [threeVoiceEngine, engineAt, List.mem_cons, List.not_mem_nil, or_false] at hp
    rcases hp with h | h | h <;> rw [h] <;>
      first
        | exact reconstructId_C2
        | exact reconstructId_E3
        | exact reconstructId_G4
  exact ⟨rfl, hwf,
    C4_stopAll_empties_wellformed_registry 5 threeVoiceEngine
      ({ currentTime := 0, state := CtxState.running } : AudioCtx) rfl hwf⟩

/-- C4 counterexample: a voice whose identity was created with octave `-1`
sits under the key `C--1`; `stopAllNotes` reconstructs the identity `C-NaN`
from it, finds no such voice, and therefore neither releases it nor schedules
its cleanup — the voice survives `stopAllNotes` (and any timer firings), so
the registry is not left empty. -/
theorem C4_negative_octave_survives_stopAll_cex :
    (stopAllNotes 0 negOctaveEngine).2 = false ∧
    ((fireAllTimeouts (stopAllNotes 0 negOctaveEngine).1).activeNotes.lookup "C--1").isSome =
      true ∧
    (fireAllTimeouts (stopAllNotes 0 negOctaveEngine).1).activeNotes ≠ [] :=
  ⟨rfl, rfl, List.cons_ne_nil _ _⟩

theorem natDigits_ne_nil (n : Nat) : natDigits n ≠ [] := by
  rw [natDigits]
  by_cases h : n < 10
  · rw [if_pos h]
    exact List.cons_ne_nil _ _
  · rw [if_neg h]
    simp

theorem natDigits_digits (n : Nat) : ∀ c ∈ natDigits n, isDigitChar c = true := by
  have h10 : ∀ m, m < 10 → isDigitChar (Nat.digitChar m) = true := by decide
  induction n using Nat.strong_induction_on with
  | _ n ih =>
    intro c hc
    rw [natDigits] at hc
    by_cases h : n < 10
    · rw [if_pos h] at hc
      rw [List.mem_singleton] at hc
      rw [hc]
      exact h10 n h
    · rw [if_neg h] at hc
      rcases List.mem_append.mp hc with hc | hc
      · exact ih (n / 10) (Nat.div_lt_self (by omega) (by omega)) c hc
      · rw [List.mem_singleton] at hc
        rw [hc]
        exact h10 (n % 10) (Nat.mod_lt n (by omega))

theorem takeWhile_all (p : Char → Bool) (l : List Char) (h : ∀ c ∈ l, p c = true) :
    l.takeWhile p = l := by
  induction l with
  | nil => rfl
  | cons c cs ih =>
    rw [List.takeWhile_cons, h c (List.mem_cons_self c cs)]
    rw [ih (fun x hx => h x (List.mem_cons_of_mem c hx))]
    rfl

theorem natDigits_foldl (n : Nat) :
    ∀ a : Nat, (natDigits n).foldl (fun a c => 10 * a + (c.toNat - 48)) a =
      a * 10 ^ (natDigits n).length + n := by
  have h10 : ∀ m, m < 10 → (Nat.digitChar m).toNat - 48 = m := by decide
  induction n using Nat.strong_induction_on with
  | _ n ih =>
    intro a
    rw [natDigits]
    by_cases h : n < 10
    · rw [if_pos h]
      simp [List.foldl_cons, h10 n h]
      ring
    · rw [if_neg h]
      rw [List.foldl_append, ih (n / 10) (Nat.div_lt_self (by omega) (by omega)) a]
      simp only [List.foldl_cons, List.foldl_nil, List.length_append, List.length_cons,
        List.length_nil]
      rw [h10 (n % 10) (Nat.mod_lt n (by omega))]
      have hdm : 10 * (n / 10) + n % 10 = n := Nat.div_add_mod n 10
      rw [pow_succ]
      ring_nf
      omega

theorem parseDigits_natDigits (n : Nat) : parseDigits (natDigits n) = some n := by
  unfold parseDigits
  rw [takeWhile_all isDigitChar (natDigits n) (natDigits_digits n)]
  rw [if_neg (natDigits_ne_nil n)]
  rw [natDigits_foldl n 0]
  simp

theorem parseIntJS_natToString (n : Nat) : parseIntJS (natToString n) = JsNum.int n := by
  unfold parseIntJS
  rw [show (natToString n).toList = natDigits n from rfl]
  cases hd : natDigits n with
  | nil => exact absurd hd (natDigits_ne_nil n)
  | cons c cs =>
    have hc : isDigitChar c = true := natDigits_digits n c (hd ▸ List.mem_cons_self c cs)
    have hcd : ¬ c = '-' := by
      intro h
      rw [h] at hc
      exact absurd hc (by decide)
    dsimp only
    rw [if_neg hcd, ← hd, parseDigits_natDigits n]

theorem splitChars_no_sep (sep : Char) (l : List Char) (h : ∀ c ∈ l, ¬ c = sep) :
    splitChars sep l = [l] := by
  induction l with
  | nil => rfl
  | cons c cs ih =>
    rw [splitChars]
    rw [if_neg (h c (List.mem_cons_self c cs))]
    rw [ih (fun x hx => h x (List.mem_cons_of_mem c hx))]

theorem splitChars_append (sep : Char) (l1 l2 : List Char) (h : ∀ c ∈ l1, ¬ c = sep) :
    splitChars sep (l1 ++ sep :: l2) = l1 :: splitChars sep l2 := by
  induction l1 with
  | nil =>
    rw [List.nil_append, splitChars, if_pos rfl]
  | cons c cs ih =>
    rw [List.cons_append, splitChars]
    rw [if_neg (h c (List.mem_cons_self c cs))]
    rw [ih (fun x hx => h x (List.mem_cons_of_mem c hx))]

theorem noteFrequencies_no_dash (note : String) (h : (noteFrequencies note).isSome) :
    ∀ c ∈ note.toList, ¬ c = '-' := by
  rw [noteFrequencies] at h
  by_cases h0 : note = "C"
  · rw [h0]
    decide
  rw [if_neg h0] at h
  by_cases h1 : note = "C#"
  · rw [h1]
    decide
  rw [if_neg h1] at h
  by_cases h2 : note = "D"
  · rw [h2]
    decide
  rw [if_neg h2] at h
  by_cases h3 : note = "D#"
  · rw [h3]
    decide
  rw [if_neg h3] at h
  by_cases h4 : note = "E"
  · rw [h4]
    decide
  rw [if_neg h4] at h
  by_cases h5 : note = "F"
  · rw [h5]
    decide
  rw [if_neg h5] at h
  by_cases h6 : note = "F#"
  · rw [h6]
    decide
  rw [if_neg h6] at h
  by_cases h7 : note = "G"
  · rw [h7]
    decide
  rw [if_neg h7] at h
  by_cases h8 : note = "G#"
  · rw [h8]
    decide
  rw [if_neg h8] at h
  by_cases h9 : note = "A"
  · rw [h9]
    decide
  rw [if_neg h9] at h
  by_cases h10 : note = "A#"
  · rw [h10]
    decide
  rw [if_neg h10] at h
  by_cases h11 : note = "B"
  · rw [h11]
    decide
  rw [if_neg h11] at h
  exact absurd h (by decide)

theorem natDigits_no_dash (n : Nat) : ∀ c ∈ natDigits n, ¬ c = '-' := by
  intro c hc h
  have hd := natDigits_digits n c hc
  rw [h] at hd
  exact absurd hd (by decide)

theorem splitDash_noteId_nonneg (note : String) (o : Int) (ho : 0 ≤ o)
    (hnd : ∀ c ∈ note.toList, ¬ c = '-') :
    splitDash (noteId note o) = [note, jsIntToString o] := by
  have hjs : jsIntToString o = natToString o.natAbs := by
    unfold jsIntToString
    rw [if_neg (not_lt.mpr ho)]
  unfold splitDash noteId
  rw [hjs]
  rw [show (note ++ "-" ++ natToString o.natAbs).toList =
      note.toList ++ '-' :: natDigits o.natAbs from by
    show (note ++ "-" ++ natToString o.natAbs).data = note.data ++ '-' :: natDigits o.natAbs
    rw [String.data_append, String.data_append, List.append_assoc]
    rfl]
  rw [splitChars_append '-' note.toList (natDigits o.natAbs) hnd]
  rw [splitChars_no_sep '-' (natDigits o.natAbs) (natDigits_no_dash o.natAbs)]
  rfl

theorem splitDash_noteId_neg (note : String) (o : Int) (ho : o < 0)
    (hnd : ∀ c ∈ note.toList, ¬ c = '-') :
    splitDash (noteId note o) = [note, "", natToString o.natAbs] := by
  have hjs : jsIntToString o = "-" ++ natToString o.natAbs := by
    unfold jsIntToString
    rw [if_pos ho]
  unfold splitDash noteId
  rw [hjs]
  rw [show (note ++ "-" ++ ("-" ++ natToString o.natAbs)).toList =
      note.toList ++ '-' :: ('-' :: natDigits o.natAbs) from by
    show (note ++ "-" ++ ("-" ++ natToString o.natAbs)).data =
      note.data ++ '-' :: ('-' :: natDigits o.natAbs)
    rw [String.data_append, String.data_append, String.data_append, List.append_assoc]
    rfl]
  rw [splitChars_append '-' note.toList ('-' :: natDigits o.natAbs) hnd]
  rw [show splitChars '-' ('-' :: natDigits o.natAbs) =
      [] :: splitChars '-' (natDigits o.natAbs) from by
    rw [splitChars]
    rw [if_pos rfl]]
  rw [splitChars_no_sep '-' (natDigits o.natAbs) (natDigits_no_dash o.natAbs)]
  rfl

theorem parseIntJS_jsIntToString_nonneg (o : Int) (ho : 0 ≤ o) :
    parseIntJS (jsIntToString o) = JsNum.int o := by
  have hjs : jsIntToString o = natToString o.natAbs := by
    unfold jsIntToString
    rw [if_neg (not_lt.mpr ho)]
  rw [hjs, parseIntJS_natToString]
  congr 1
  exact Int.natAbs_of_nonneg ho

theorem reconstructId_nonneg (note : String) (o : Int) (ho : 0 ≤ o)
    (hnd : ∀ c ∈ note.toList, ¬ c = '-') :
    reconstructId (noteId note o) = noteId note o := by
  unfold reconstructId
  rw [splitDash_noteId_nonneg note o ho hnd]
  show noteIdJ note (parseIntJS (jsIntToString o)) = noteId note o
  rw [parseIntJS_jsIntToString_nonneg o ho]
  rfl

theorem noteIdJ_nan_ne_noteId_neg (note : String) (o : Int) (ho : o < 0) :
    noteIdJ note JsNum.nan ≠ noteId note o := by
  intro h
  have hjs : jsIntToString o = "-" ++ natToString o.natAbs := by
    unfold jsIntToString
    rw [if_pos ho]
  unfold noteIdJ noteId JsNum.render at h
  rw [hjs] at h
  have hd := congrArg String.data h
  rw [String.data_append, String.data_append, String.data_append, String.data_append,
    List.append_assoc, List.append_assoc] at hd
  have h2 := List.append_cancel_left hd
  rw [show ("-").data = ['-'] from rfl] at h2
  have h3 := List.append_cancel_left h2
  rw [String.data_append] at h3
  injection h3 with h4 h5
  exact absurd h4 (by decide)

/-- C10: a voice is stored under the key `note-octave`; `stopAllNotes`
recovers the identity by splitting that key at the first `-`.  For
non-negative octaves the split returns exactly the original pair, so the
voice is stopped and its entry eventually removed; for a negative octave the
key contains a double dash, the reconstructed identity is `note-NaN`, and the
voice's registry entry survives `stopAllNotes` and all timer firings. -/
theorem C10_noteId_roundtrip (note : String) (o : Int)
    (h : (noteFrequencies note).isSome) :
    ((playNote none (engineAt 0 (1/2) 0 200) note o).1.activeNotes.map Prod.fst =
      [noteId note o]) ∧
    (0 ≤ o →
      splitDash (noteId note o) = [note, jsIntToString o] ∧
      parseIntJS (jsIntToString o) = JsNum.int o ∧
      (stopAllNotes 7 (playNote none (engineAt 0 (1/2) 0 200) note o).1).2 = false ∧
      (fireAllTimeouts
        (stopAllNotes 7 (playNote none (engineAt 0 (1/2) 0 200) note o).1).1).activeNotes =
          []) ∧
    (o < 0 →
      reconstructId (noteId note o) ≠ noteId note o ∧
      ((fireAllTimeouts
        (stopAllNotes 7 (playNote none (engineAt 0 (1/2) 0 200) note o).1).1).activeNotes.lookup
          (noteId note o)).isSome = true) := by
  obtain ⟨f, hf⟩ := Option.isSome_iff_exists.mp h
  have hnd := noteFrequencies_no_dash note h
  rw [playNote_fresh note f o 0 (1/2) 0 200 hf]
  set nd0 : NoteData :=
    { oscillator :=
        { type := "sine", frequency := noteToFrequency note o,
          startTime := some 0, stopTime := none },
      gainNode :=
        { events := [AutomationEvent.setValue 0 0,
                     AutomationEvent.linearRamp (0 + 0 / 1000) (1/2)],
          currentValue := 1 },
      startTime := 0 } with hnd0
  refine ⟨rfl, fun ho => ?_, fun ho => ?_⟩
  · have hsp := splitDash_noteId_nonneg note o ho hnd
    have hpi := parseIntJS_jsIntToString_nonneg o ho
    have hwf : ∀ p ∈ ({ engineAt 0 (1/2) 0 200 with
        activeNotes := [(noteId note o, nd0)] } : AudioEngine).activeNotes,
        reconstructId p.1 = p.1 := by
      intro p hp
      have hp1 : p = (noteId note o, nd0) := by
        simpa [engineAt] using hp
      rw [hp1]
      exact reconstructId_nonneg note o ho hnd
    have hclear := stopAll_clears 7 _ { currentTime := 0, state := CtxState.running }
      (by simp [engineAt]) hwf
    exact ⟨hsp, hpi, hclear.1, hclear.2⟩
  · have hsp := splitDash_noteId_neg note o ho hnd
    have hne := noteIdJ_nan_ne_noteId_neg note o ho
    have hrec : reconstructId (noteId note o) = noteIdJ note JsNum.nan := by
      unfold reconstructId
      rw [hsp]
      rfl
    have habs : (({ engineAt 0 (1/2) 0 200 with
        activeNotes := [(noteId note o, nd0)] } : AudioEngine)).activeNotes.lookup
          (noteIdJ note JsNum.nan) = none := by
      show List.lookup (noteIdJ note JsNum.nan) [(noteId note o, nd0)] = none
      rw [List.lookup_cons]
      rw [beq_false_of_ne hne]
      rfl
    have hstop : stopAllNotes 7 ({ engineAt 0 (1/2) 0 200 with
        activeNotes := [(noteId note o, nd0)] } : AudioEngine) =
        (({ engineAt 0 (1/2) 0 200 with
          activeNotes := [(noteId note o, nd0)] } : AudioEngine), false) := by
      unfold stopAllNotes
      show List.foldl (stopAllStep 7) _ [(noteId note o, nd0)] = _
      rw [List.foldl_cons, List.foldl_nil]
      show stopAllStep 7 (_, false) (noteId note o, nd0) = _
      unfold stopAllStep
      dsimp only
      rw [hsp]
      dsimp only [List.headD, List.getD]
      exact stopNote_absent 7 _ note (parseIntJS "") habs
    constructor
    · rw [hrec]
      exact hne
    · rw [hstop]
      simp [fireAllTimeouts, engineAt, List.lookup_cons]

theorem C10_witness :
    (noteFrequencies "C").isSome ∧
    ((playNote none (engineAt 0 (1/2) 0 200) "C" (-1)).1.activeNotes.map Prod.fst =
      [noteId "C" (-1)]) ∧
    ((-1 : Int) < 0) ∧
    (reconstructId (noteId "C" (-1)) ≠ noteId "C" (-1) ∧
      ((fireAllTimeouts
        (stopAllNotes 7 (playNote none (engineAt 0 (1/2) 0 200) "C" (-1)).1).1).activeNotes.lookup
          (noteId "C" (-1))).isSome = true) :=
  ⟨rfl, (C10_noteId_roundtrip "C" (-1) rfl).1, by decide,
    (C10_noteId_roundtrip "C" (-1) rfl).2.2 (by decide)⟩
